import Mathlib

/-!
Verification of the Actisense SDK core protocol pipeline.

Shallow embedding of:
* the BDTP framer (`src/protocols/bdtp/bdtp_protocol.cpp`): DLE/STX/ETX
  state machine, BST datagram extraction, zero-sum checksum, frame encoder;
* the BST decoder (`src/protocols/bst/bst_decoder.cpp`): BST-93 decoding and
  the PGN calculation / PDU-field extraction pair;
* the BEM engine (`src/protocols/bem/bem_protocol.cpp`): command encoding,
  pending-request table (register / correlate / timeouts / clear);
* the session command path (`src/core/session_impl.cpp`): `sendBemCommand`
  and the raw-BST reconstruction in `handleBstDatagram`.

Bytes are modelled as `Nat` values below 256; buffers as `List Nat`;
the `std::map` pending table as an association list with replace-on-insert,
matching the unique-key semantics of `std::map`.
-/

namespace Actisense

/-- DLE control byte (0x10), `BdtpChars::DLE`. -/
def DLE : Nat := 0x10

/-- STX control byte (0x02), `BdtpChars::STX`. -/
def STX : Nat := 0x02

/-- ETX control byte (0x03), `BdtpChars::ETX`. -/
def ETX : Nat := 0x03

/-- `BdtpProtocol::kMaxFrameSize` (bdtp_protocol.hpp line 139). -/
def kMaxFrameSize : Nat := 512

/-- Error codes surfaced by the SDK (subset used by the embedded code paths),
from `public/actisense/error.hpp`. -/
inductive ErrorCode
  | Ok
  | MalformedFrame
  | InvalidArgument
  | Timeout
  | Canceled
  | UnsupportedOperation
  deriving DecidableEq, Repr

/-- `BstDatagram` (bdtp_protocol.hpp lines 39-44): BST id, store length and
payload extracted from a BDTP frame. -/
structure BstDatagram where
  bstId : Nat
  storeLength : Nat
  data : List Nat
  deriving DecidableEq, Repr

/-- An emission of the BDTP parser: either a parsed-message event carrying a
`BstDatagram`, or an error event. -/
inductive Emission
  | msg (d : BstDatagram)
  | err (code : ErrorCode)
  deriving DecidableEq, Repr

/-- Parser states of `BdtpProtocol` (bdtp_protocol.hpp lines 126-132). -/
inductive BdtpState
  | Idle
  | GotDLE
  | InFrame
  | InFrameGotDLE
  deriving DecidableEq, Repr

/-- The mutable state of a `BdtpProtocol` instance: parser state, unescaped
frame buffer, and the two counters. -/
structure BdtpParser where
  state : BdtpState
  frameBuffer : List Nat
  framesReceived : Nat
  framesDropped : Nat
  deriving DecidableEq, Repr

/-- Freshly constructed `BdtpProtocol` (constructor, bdtp_protocol.cpp
lines 27-30). -/
def BdtpParser.init : BdtpParser :=
  ⟨BdtpState.Idle, [], 0, 0⟩

/-- `BdtpProtocol::calculateChecksum`: sum of all bytes truncated to 8 bits
(bdtp_protocol.cpp lines 227-234). -/
def calculateChecksum (data : List Nat) : Nat :=
  data.foldl (fun s b => (s + b) % 256) 0

/-- `BdtpProtocol::parseBstFromFrame` (bdtp_protocol.cpp lines 292-328).
Returns the extracted datagram, or `none` on short frame / incomplete frame /
checksum mismatch (the caller then reports `MalformedFrame`). -/
def parseBstFromFrame (frameData : List Nat) : Option BstDatagram :=
  if frameData.length < 3 then none
  else
    let bstId := frameData.getD 0 0
    let storeLength := frameData.getD 1 0
    let expectedSize := 2 + storeLength + 1
    if frameData.length < expectedSize then none
    else
      let checksumData := frameData.take (2 + storeLength + 1)
      if calculateChecksum checksumData ≠ 0 then none
      else some ⟨bstId, storeLength, (frameData.drop 2).take storeLength⟩

/-- `BdtpProtocol::processCompletedFrame` (bdtp_protocol.cpp lines 259-290):
empty frames are silently ignored; otherwise the frame is parsed as a BST
datagram, incrementing `frames_received_` and emitting the message on success,
or incrementing `frames_dropped_` and emitting `MalformedFrame` on failure. -/
def processCompletedFrame (p : BdtpParser) : BdtpParser × List Emission :=
  if p.frameBuffer.isEmpty then (p, [])
  else
    match parseBstFromFrame p.frameBuffer with
    | some d =>
        ({ p with frameBuffer := [], framesReceived := p.framesReceived + 1 },
         [Emission.msg d])
    | none =>
        ({ p with frameBuffer := [], framesDropped := p.framesDropped + 1 },
         [Emission.err ErrorCode.MalformedFrame])

/-- One step of `BdtpProtocol::parse` (bdtp_protocol.cpp lines 44-150):
the body of the per-byte `switch` on the parser state. -/
def parseByte (p : BdtpParser) (byte : Nat) : BdtpParser × List Emission :=
  match p.state with
  | BdtpState.Idle =>
      if byte = DLE then ({ p with state := BdtpState.GotDLE }, [])
      else (p, [])
  | BdtpState.GotDLE =>
      if byte = STX then
        ({ p with state := BdtpState.InFrame, frameBuffer := [] }, [])
      else if byte = DLE then (p, [])
      else ({ p with state := BdtpState.Idle }, [])
  | BdtpState.InFrame =>
      if byte = DLE then ({ p with state := BdtpState.InFrameGotDLE }, [])
      else if p.frameBuffer.length < kMaxFrameSize then
        ({ p with frameBuffer := p.frameBuffer ++ [byte] }, [])
      else
        ({ p with state := BdtpState.Idle, frameBuffer := [],
                  framesDropped := p.framesDropped + 1 },
         [Emission.err ErrorCode.MalformedFrame])
  | BdtpState.InFrameGotDLE =>
      if byte = ETX then
        let r := processCompletedFrame p
        ({ r.1 with state := BdtpState.Idle }, r.2)
      else if byte = DLE then
        (if p.frameBuffer.length < kMaxFrameSize then
           { p with state := BdtpState.InFrame,
                    frameBuffer := p.frameBuffer ++ [DLE] }
         else { p with state := BdtpState.InFrame }, [])
      else if byte = STX then
        ({ p with state := BdtpState.InFrame, frameBuffer := [],
                  framesDropped := p.framesDropped + 1 },
         [Emission.err ErrorCode.MalformedFrame])
      else
        ({ p with state := BdtpState.Idle, frameBuffer := [],
                  framesDropped := p.framesDropped + 1 },
         [Emission.err ErrorCode.MalformedFrame])

/-- `BdtpProtocol::parse` over a whole input, collecting all emissions in
order. -/
def parseBytes (p : BdtpParser) (input : List Nat) : BdtpParser × List Emission :=
  match input with
  | [] => (p, [])
  | b :: rest =>
      let r := parseByte p b
      let r' := parseBytes r.1 rest
      (r'.1, r.2 ++ r'.2)

/-- `BdtpProtocol::encodeFrame` (bdtp_protocol.cpp lines 188-207):
DLE STX, payload with every literal DLE doubled, DLE ETX. -/
def encodeFrame (data : List Nat) : List Nat :=
  [DLE, STX] ++ (data.flatMap fun b => if b = DLE then [DLE, DLE] else [b]) ++ [DLE, ETX]

/-! ## BST decoder (`src/protocols/bst/bst_decoder.cpp`) -/

/-- `isBemResponse` (bst_types.hpp lines 55-58): A0/A2/A3/A5. -/
def isBemResponseId (id : Nat) : Bool :=
  id = 0xA0 ∨ id = 0xA2 ∨ id = 0xA3 ∨ id = 0xA5

/-- `isBemCommand` (bst_types.hpp lines 63-66): A1/A4/A6/A8. -/
def isBemCommandId (id : Nat) : Bool :=
  id = 0xA1 ∨ id = 0xA4 ∨ id = 0xA6 ∨ id = 0xA8

/-- `isBstType2` (bst_types.hpp lines 71-74): 0xD0..0xDF use the 16-bit
length format. -/
def isBstType2 (id : Nat) : Bool :=
  0xD0 ≤ id ∧ id ≤ 0xDF

/-- `BstDecoder::calculatePgn` (bst_decoder.cpp lines 375-393). The C++ ORs
the shifted `uint8_t` arguments; for byte-valued arguments the bit ranges are
disjoint, so OR equals addition. -/
def calculatePgn (pduf pdus dataPage : Nat) : Nat :=
  if 240 ≤ pduf then dataPage * 65536 + pduf * 256 + pdus
  else dataPage * 65536 + pduf * 256

/-- `BstDecoder::extractPduFields` (bst_decoder.cpp lines 395-412), returning
`(pduf, pdus, dataPage)`. `(pgn >> 16) & 0x03` is `pgn / 65536 % 4`,
`(pgn >> 8) & 0xFF` is `pgn / 256 % 256`, `pgn & 0xFF` is `pgn % 256`. -/
def extractPduFields (pgn : Nat) : Nat × Nat × Nat :=
  let dataPage := pgn / 65536 % 4
  let pduf := pgn / 256 % 256
  let pdus := if 240 ≤ pduf then pgn % 256 else 0
  (pduf, pdus, dataPage)

/-- `BstDecoder::readU32LE` (bst_decoder.cpp lines 420-426). -/
def readU32LE (b0 b1 b2 b3 : Nat) : Nat :=
  b0 + b1 * 256 + b2 * 65536 + b3 * 16777216

/-- Decoded BST-93 frame (bst_types.hpp `Bst93Frame`), with the fields the
decoder assigns. -/
structure Bst93Frame where
  bstId : Nat
  priority : Nat
  pgn : Nat
  source : Nat
  destination : Nat
  timestamp : Nat
  checksumValid : Bool
  data : List Nat
  deriving DecidableEq, Repr

/-- `BstDecoder::decode93` (bst_decoder.cpp lines 137-189). Field offsets:
priority 0, pdus 1, pduf 2, dp 3, dest 4, src 5, time 6..9, dataLen 10,
data from 11. `& 0x07` is `% 8` and `& 0x03` is `% 4`. -/
def decode93 (data : List Nat) : Option Bst93Frame :=
  if data.length < 2 + 13 then none
  else
    let storeLen := data.getD 1 0
    let payload := data.drop 2
    if payload.length < storeLen then none
    else if storeLen < 13 then none
    else
      let priority := payload.getD 0 0 % 8
      let pdus := payload.getD 1 0
      let pduf := payload.getD 2 0
      let dp := payload.getD 3 0 % 4
      let dataLen := payload.getD 10 0
      if storeLen < 11 + dataLen then none
      else
        some ⟨0x93, priority, calculatePgn pduf pdus dp,
              payload.getD 5 0, payload.getD 4 0,
              readU32LE (payload.getD 6 0) (payload.getD 7 0)
                        (payload.getD 8 0) (payload.getD 9 0),
              true, (payload.drop 11).take dataLen⟩

/-! ## Session BST handling (`src/core/session_impl.cpp`) -/

/-- The raw BST byte view rebuilt by `SessionImpl::handleBstDatagram`
(session_impl.cpp lines 233-253) before calling the BST decoder: Type-2 ids
get `id, totalLen & 0xFF, totalLen >> 8` with `totalLen = 3 + data.size()`
(as `uint16_t`), Type-1 ids get `id, storeLength` (store length cast to
`uint8_t`). -/
def reconstructRawBst (d : BstDatagram) : List Nat :=
  if isBstType2 d.bstId then
    [d.bstId, (3 + d.data.length) % 65536 % 256, (3 + d.data.length) % 65536 / 256] ++ d.data
  else
    [d.bstId, d.storeLength % 256] ++ d.data

/-- 16-bit little-endian total length read from bytes 1 and 2 of a raw BST
frame (the Type-2 length field, `readU16LE(&data[1])`). -/
def totalLength16 (frame : List Nat) : Nat :=
  frame.getD 1 0 + frame.getD 2 0 * 256

/-- The BST-93 leg of `SessionImpl::handleBstDatagram` composed with
`BstDecoder::decode` (session_impl.cpp lines 218-262, bst_decoder.cpp lines
65-135): BEM-response ids go to the BEM path instead, otherwise the raw BST
bytes are rebuilt and dispatched on the id byte; id 0x93 is decoded by
`decode93`. -/
def handleDatagram93 (d : BstDatagram) : Option Bst93Frame :=
  if isBemResponseId d.bstId then none
  else
    let raw := reconstructRawBst d
    if raw.getD 0 0 = 0x93 then decode93 raw else none

/-- End-to-end inbound pipeline for BST-93 traffic: BDTP framer over the
byte stream, then the session's datagram handling, keeping the decoded
BST-93 frames in emission order. -/
def pipelineBst93 (input : List Nat) : List Bst93Frame :=
  (parseBytes BdtpParser.init input).2.filterMap fun e =>
    match e with
    | Emission.msg d => handleDatagram93 d
    | Emission.err _ => none

/-! ## BEM engine (`src/protocols/bem/bem_protocol.cpp`)

The `std::map<uint64_t, PendingRequest>` pending table is modelled as an
association list whose operations mirror the map's unique-key semantics:
insertion replaces an existing binding, lookup returns the bound value,
erase removes the binding. Completion callbacks are identified by a `Nat`
tag; an invocation records the callback, the optional response passed to
it, and the error code. -/

/-- `BemProtocol::PendingRequest` (bem_protocol.hpp lines 190-196), with the
callback modelled as an identifying tag and times as `Nat` milliseconds. -/
structure PendingRequest where
  commandId : Nat
  sentAt : Nat
  timeout : Nat
  callback : Nat
  deriving DecidableEq, Repr

/-- The pending-request table keyed by the 64-bit correlation key. -/
abbrev PendingTable := List (Nat × PendingRequest)

/-- `pending_requests_[key] = req`: `std::map` subscript-assign, replacing an
existing binding for the key or appending a new one. -/
def mapInsert (k : Nat) (v : PendingRequest) : PendingTable → PendingTable
  | [] => [(k, v)]
  | (k', v') :: rest =>
      if k = k' then (k, v) :: rest else (k', v') :: mapInsert k v rest

/-- `pending_requests_.find(key)`. -/
def mapFind (k : Nat) : PendingTable → Option PendingRequest
  | [] => none
  | (k', v') :: rest => if k = k' then some v' else mapFind k rest

/-- `pending_requests_.erase(it)` for the iterator found under key `k`: with
unique keys this removes exactly the binding of `k`. -/
def mapErase (k : Nat) (m : PendingTable) : PendingTable :=
  m.filter fun kv => kv.1 != k

/-- The keys of the table, in order. -/
def tableKeys (m : PendingTable) : List Nat :=
  m.map Prod.fst

/-- `BemProtocol::buildResponseKey` (bem_protocol.cpp lines 333-349):
`(uint16)bstId << 16 | (uint16)bemId`. -/
def buildResponseKey (bstId bemId : Nat) : Nat :=
  bstId % 65536 * 65536 + bemId % 65536

/-- The command→response BST id mapping in `BemProtocol::registerRequest`
(bem_protocol.cpp lines 197-207): A1→A0, A4→A2, A6→A3, A8→A5, default A0. -/
def mapCommandToResponseBstId (bstId : Nat) : Nat :=
  if bstId = 0xA1 then 0xA0
  else if bstId = 0xA4 then 0xA2
  else if bstId = 0xA6 then 0xA3
  else if bstId = 0xA8 then 0xA5
  else 0xA0

/-- The correlation key a `registerRequest(commandId, bstId, ...)` call files
its pending request under. -/
def requestKey (commandId bstId : Nat) : Nat :=
  buildResponseKey (mapCommandToResponseBstId bstId) commandId

/-- `BemProtocol::registerRequest` (bem_protocol.cpp lines 186-221), as its
effect on the pending table: insert (replacing any existing binding) under
the correlation key. -/
def registerRequest (m : PendingTable) (commandId bstId now timeout cb : Nat) :
    PendingTable :=
  mapInsert (requestKey commandId bstId) ⟨commandId, now, timeout, cb⟩ m

/-- The fields of `BemResponse` consumed by the correlation and session
paths: header BST id, BEM id and device error code, plus the payload. -/
structure BemResponse where
  bstId : Nat
  bemId : Nat
  errorCode : Nat
  payload : List Nat
  deriving DecidableEq, Repr

/-- One completion-callback invocation: which callback ran, the response
argument (`None` for timeout/cancel) and the error code. -/
structure Invocation where
  callback : Nat
  response : Option BemResponse
  code : ErrorCode
  deriving DecidableEq, Repr

/-- `BemProtocol::correlateResponse` (bem_protocol.cpp lines 223-262):
look up `(response bst id, bem id)`; on miss return `false` leaving the
table alone; on hit erase the entry, invoke its callback with the response
and `Ok` (device error 0) or `UnsupportedOperation` (otherwise), and return
`true`. -/
def correlateResponse (m : PendingTable) (r : BemResponse) :
    Bool × PendingTable × List Invocation :=
  let key := buildResponseKey r.bstId r.bemId
  match mapFind key m with
  | none => (false, m, [])
  | some req =>
      (true, mapErase key m,
       [⟨req.callback, some r,
         if r.errorCode = 0 then ErrorCode.Ok else ErrorCode.UnsupportedOperation⟩])

/-- The timeout test in `BemProtocol::processTimeouts` (bem_protocol.cpp
line 277): `elapsed >= timeout` with `elapsed = now - sentAt`. -/
def expiredAt (now : Nat) (req : PendingRequest) : Bool :=
  req.timeout ≤ now - req.sentAt

/-- `BemProtocol::processTimeouts` (bem_protocol.cpp lines 264-301): remove
every expired entry and invoke its callback with `(None, Timeout)`, in table
order. -/
def processTimeouts (m : PendingTable) (now : Nat) :
    PendingTable × List Invocation :=
  (m.filter fun kv => !expiredAt now kv.2,
   (m.filter fun kv => expiredAt now kv.2).map fun kv =>
     ⟨kv.2.callback, none, ErrorCode.Timeout⟩)

/-- `BemProtocol::clearPendingRequests` (bem_protocol.cpp lines 309-331):
invoke every outstanding callback with `(None, Canceled)` and empty the
table. -/
def clearPendingRequests (m : PendingTable) : PendingTable × List Invocation :=
  ([], m.map fun kv => ⟨kv.2.callback, none, ErrorCode.Canceled⟩)

/-- The operations a session lifetime performs on the pending table. -/
inductive BemOp
  | register (commandId bstId now timeout cb : Nat)
  | correlate (r : BemResponse)
  | sweep (now : Nat)
  | clear
  deriving DecidableEq, Repr

/-- Effect of one operation on the table, with the callback invocations it
performs. -/
def stepOp (m : PendingTable) : BemOp → PendingTable × List Invocation
  | BemOp.register commandId bstId now timeout cb =>
      (registerRequest m commandId bstId now timeout cb, [])
  | BemOp.correlate r => ((correlateResponse m r).2.1, (correlateResponse m r).2.2)
  | BemOp.sweep now => processTimeouts m now
  | BemOp.clear => clearPendingRequests m

/-- Run a sequence of operations, collecting all callback invocations in
order. -/
def runOps (m : PendingTable) : List BemOp → PendingTable × List Invocation
  | [] => (m, [])
  | op :: ops =>
      let r := stepOp m op
      let r' := runOps r.1 ops
      (r'.1, r.2 ++ r'.2)

/-- How many entries of the table hold callback `cb`. -/
def tableCount (cb : Nat) : PendingTable → Nat
  | [] => 0
  | kv :: rest => (if kv.2.callback = cb then 1 else 0) + tableCount cb rest

/-- How many invocations in the list ran callback `cb`. -/
def invCount (cb : Nat) : List Invocation → Nat
  | [] => 0
  | i :: rest => (if i.callback = cb then 1 else 0) + invCount cb rest

/-- How many `register` operations of the trace carry callback `cb`. -/
def regCount (cb : Nat) : List BemOp → Nat
  | [] => 0
  | BemOp.register _ _ _ _ cb' :: ops =>
      (if cb' = cb then 1 else 0) + regCount cb ops
  | _ :: ops => regCount cb ops

/-- The correlation keys of the `register` operations of a trace, in order. -/
def regKeys : List BemOp → List Nat
  | [] => []
  | BemOp.register commandId bstId _ _ _ :: ops =>
      requestKey commandId bstId :: regKeys ops
  | _ :: ops => regKeys ops

/-! ## Session BEM command path (`src/core/session_impl.cpp`) -/

/-- `BemCommand` (bem_types.hpp): BST id, BEM id and data payload. -/
structure BemCommand where
  bstId : Nat
  bemId : Nat
  data : List Nat
  deriving DecidableEq, Repr

/-- `BemProtocol::encodeCommand` (bem_protocol.cpp lines 25-62): reject a
non-command BST id or data over 252 bytes; otherwise build
`id, 1+len, bemId, data, checksum` with the zero-sum checksum and wrap it
with BDTP framing. -/
def encodeCommand (c : BemCommand) : Option (List Nat) :=
  if ¬ isBemCommandId c.bstId then none
  else if 252 < c.data.length then none
  else
    let bstPayload := [c.bstId % 256, (1 + c.data.length) % 256, c.bemId % 256] ++ c.data
    let checksum := (256 - calculateChecksum bstPayload) % 256
    some (encodeFrame (bstPayload ++ [checksum]))

/-- Observable actions of `SessionImpl::sendBemCommand`, in program order. -/
inductive SessionAction
  | invokeCallback (cb : Nat) (response : Option BemResponse) (code : ErrorCode)
  | registerPending (key : Nat) (cb : Nat)
  | transportSend (frame : List Nat)
  deriving DecidableEq, Repr

/-- `SessionImpl::sendBemCommand` (session_impl.cpp lines 98-122): if
encoding fails, invoke the callback synchronously with `InvalidArgument`
and stop; otherwise register the pending request, then hand the frame to
the transport. -/
def sendBemCommand (m : PendingTable) (c : BemCommand) (now timeout cb : Nat) :
    PendingTable × List SessionAction :=
  match encodeCommand c with
  | none => (m, [SessionAction.invokeCallback cb none ErrorCode.InvalidArgument])
  | some frame =>
      (registerRequest m c.bemId c.bstId now timeout cb,
       [SessionAction.registerPending (requestKey c.bemId c.bstId) cb,
        SessionAction.transportSend frame])

/-! ## Helper lemmas -/

/-- Any datagram returned by `parseBstFromFrame` has body length equal to the
store-length byte the frame carries at offset 1. -/
lemma parseBstFromFrame_length {frame : List Nat} {d : BstDatagram}
    (h : parseBstFromFrame frame = some d) :
    d.data.length = d.storeLength ∧ d.storeLength = frame.getD 1 0 := by
  unfold parseBstFromFrame at h
  simp only [] at h
  split_ifs at h with h1 h2 h3
  simp only [Option.some.injEq] at h
  subst h
  refine ⟨?_, rfl⟩
  simp only [List.length_take, List.length_drop]
  omega

/-- Messages emitted by `processCompletedFrame` come from a successful
`parseBstFromFrame` of the buffered frame. -/
lemma processCompletedFrame_msg {p : BdtpParser} {d : BstDatagram}
    (h : Emission.msg d ∈ (processCompletedFrame p).2) :
    parseBstFromFrame p.frameBuffer = some d := by
  unfold processCompletedFrame at h
  split_ifs at h with h1
  · simp at h
  · rcases h2 : parseBstFromFrame p.frameBuffer with _ | d'
    · rw [h2] at h; simp at h
    · rw [h2] at h; simp at h; rw [h]

/-- Messages emitted by a single `parseByte` step come from a successful
`parseBstFromFrame` of the buffered frame. -/
lemma parseByte_msg {p : BdtpParser} {b : Nat} {d : BstDatagram}
    (h : Emission.msg d ∈ (parseByte p b).2) :
    parseBstFromFrame p.frameBuffer = some d := by
  unfold parseByte at h
  rcases hs : p.state <;> rw [hs] at h <;> split_ifs at h <;>
    first
      | exact processCompletedFrame_msg h
      | simp at h

/-- Messages emitted anywhere in a `parseBytes` run satisfy any property that
holds of every `parseBstFromFrame` result. -/
lemma parseBytes_msg {input : List Nat} :
    ∀ {p : BdtpParser} {d : BstDatagram},
      Emission.msg d ∈ (parseBytes p input).2 →
      ∃ frame, parseBstFromFrame frame = some d := by
  induction input with
  | nil => intro p d h; simp [parseBytes] at h
  | cons b rest ih =>
      intro p d h
      simp only [parseBytes, List.mem_append] at h
      rcases h with h | h
      · exact ⟨p.frameBuffer, parseByte_msg h⟩
      · exact ih h

/-- In the `InFrame` state, a non-DLE byte arriving with the buffer at the
cap drops the frame: `MalformedFrame` is emitted, `frames_dropped_` is
incremented, and the parser returns to `Idle` with an empty buffer. -/
lemma parseByte_inFrame_cap {buf : List Nat} {r d b : Nat}
    (hcap : kMaxFrameSize ≤ buf.length) (hb : b ≠ DLE) :
    parseByte ⟨BdtpState.InFrame, buf, r, d⟩ b
      = (⟨BdtpState.Idle, [], r, d + 1⟩, [Emission.err ErrorCode.MalformedFrame]) := by
  have hlt : ¬ buf.length < kMaxFrameSize := by omega
  simp [parseByte, hb, hlt]

/-! ## Claim theorems: BDTP framer -/

set_option maxRecDepth 10000

/-- Claim C2, counterexample — the framed bytes of the spec's Scenario B are
produced by the encoder exactly as claimed, but the parser does not emit the
claimed datagram: the four payload bytes sum to 0x93 mod 256, not 0, so the
checksum check rejects the frame with `MalformedFrame`. -/
theorem scenarioB_as_stated_false :
    encodeFrame [0x93, 0x01, 0x10, 0xEF]
        = [0x10, 0x02, 0x93, 0x01, 0x10, 0x10, 0xEF, 0x10, 0x03] ∧
    (parseBytes BdtpParser.init
        [0x10, 0x02, 0x93, 0x01, 0x10, 0x10, 0xEF, 0x10, 0x03]).2
      ≠ [Emission.msg ⟨0x93, 1, [0x10]⟩] ∧
    calculateChecksum [0x93, 0x01, 0x10, 0xEF] = 0x93 := by decide

/-- Claim C2, amended — `encodeFrame` on `[93 01 10 EF]` produces
`10 02 93 01 10 10 EF 10 03` (the literal DLE is doubled), but feeding those
bytes to the parser emits no datagram and one `MalformedFrame` error, because
the payload's checksum byte would have to be 0x5C for the bytes to sum to
zero; with the corrected payload `[93 01 10 5C]` the round trip emits exactly
one `BstDatagram` with id 0x93, length 1 and body `[0x10]`. -/
theorem scenarioB_amended :
    encodeFrame [0x93, 0x01, 0x10, 0xEF]
        = [0x10, 0x02, 0x93, 0x01, 0x10, 0x10, 0xEF, 0x10, 0x03] ∧
    (parseBytes BdtpParser.init
        [0x10, 0x02, 0x93, 0x01, 0x10, 0x10, 0xEF, 0x10, 0x03]).2
      = [Emission.err ErrorCode.MalformedFrame] ∧
    encodeFrame [0x93, 0x01, 0x10, 0x5C]
        = [0x10, 0x02, 0x93, 0x01, 0x10, 0x10, 0x5C, 0x10, 0x03] ∧
    (parseBytes BdtpParser.init
        [0x10, 0x02, 0x93, 0x01, 0x10, 0x10, 0x5C, 0x10, 0x03]).2
      = [Emission.msg ⟨0x93, 1, [0x10]⟩] := by decide

/-- Claim C10 — a frame completed with an empty payload (`DLE STX DLE ETX`)
is silently ignored from any `Idle` configuration: no datagram, no error,
both counters unchanged, parser back in `Idle`. -/
theorem empty_frame_ignored (buf : List Nat) (r d : Nat) :
    parseBytes ⟨BdtpState.Idle, buf, r, d⟩ [0x10, 0x02, 0x10, 0x03]
      = (⟨BdtpState.Idle, [], r, d⟩, []) := rfl

/-- Claim C9 — with the unescaped buffer at the frame-size cap, an escaped
DLE pair inside a frame silently discards the literal 0x10: no error, no
drop-count change, buffer unchanged, parser back in `InFrame`; whereas a
non-escape data byte at the cap drops the whole frame with `MalformedFrame`
and returns the parser to `Idle`. -/
theorem escaped_dle_at_cap_discarded (buf : List Nat) (r d b : Nat)
    (hcap : kMaxFrameSize ≤ buf.length) (hb : b ≠ DLE) :
    parseByte ⟨BdtpState.InFrameGotDLE, buf, r, d⟩ DLE
        = (⟨BdtpState.InFrame, buf, r, d⟩, []) ∧
    parseByte ⟨BdtpState.InFrame, buf, r, d⟩ b
        = (⟨BdtpState.Idle, [], r, d + 1⟩, [Emission.err ErrorCode.MalformedFrame]) := by
  have hlt : ¬ buf.length < kMaxFrameSize := by omega
  exact ⟨by simp [parseByte, DLE, ETX, hlt], parseByte_inFrame_cap hcap hb⟩

/-- Witness for the claim C9 theorem at a concrete full buffer. -/
theorem escaped_dle_at_cap_discarded_witness :
    parseByte ⟨BdtpState.InFrameGotDLE, List.replicate 512 0, 0, 0⟩ DLE
        = (⟨BdtpState.InFrame, List.replicate 512 0, 0, 0⟩, []) ∧
    parseByte ⟨BdtpState.InFrame, List.replicate 512 0, 0, 0⟩ 5
        = (⟨BdtpState.Idle, [], 0, 0 + 1⟩, [Emission.err ErrorCode.MalformedFrame]) :=
  escaped_dle_at_cap_discarded (List.replicate 512 0) 0 0 5
    (by simp [kMaxFrameSize]) (by decide)

/-- Claim C6, counterexample — the cap does not admit payloads of 1800
bytes: a frame with 513 unescaped payload bytes is already dropped with
`MalformedFrame` (frames_dropped becomes 1, parser back to `Idle`). -/
theorem frame_cap_not_1800 :
    parseBytes BdtpParser.init ([0x10, 0x02] ++ List.replicate 513 0x01)
      = (⟨BdtpState.Idle, [], 0, 1⟩, [Emission.err ErrorCode.MalformedFrame]) := by
  decide

/-- Claim C6, amended — the cap (`kMaxFrameSize = 512`) admits unescaped
payloads of exactly up to 512 bytes: 512 data bytes are all buffered without
error, and whenever a further non-escape data byte arrives with the buffer
at the cap the frame is dropped, `MalformedFrame` is emitted, and the framer
returns to `Idle`. -/
theorem frame_cap_512 :
    (parseBytes BdtpParser.init ([0x10, 0x02] ++ List.replicate 512 0x01)
       = (⟨BdtpState.InFrame, List.replicate 512 0x01, 0, 0⟩, [])) ∧
    ∀ (buf : List Nat) (r d b : Nat), kMaxFrameSize ≤ buf.length → b ≠ DLE →
      parseByte ⟨BdtpState.InFrame, buf, r, d⟩ b
        = (⟨BdtpState.Idle, [], r, d + 1⟩, [Emission.err ErrorCode.MalformedFrame]) :=
  ⟨by decide, fun buf r d b hcap hb => parseByte_inFrame_cap hcap hb⟩

/-- Witness for the claim C6 amended theorem at a concrete full buffer. -/
theorem frame_cap_512_witness :
    parseByte ⟨BdtpState.InFrame, List.replicate 512 0, 3, 4⟩ 9
      = (⟨BdtpState.Idle, [], 3, 4 + 1⟩, [Emission.err ErrorCode.MalformedFrame]) :=
  frame_cap_512.2 (List.replicate 512 0) 3 4 9 (by simp [kMaxFrameSize]) (by decide)

/-- Claim C5, counterexample — the framer applies no Type-2 handling: the
frame `D0 01 AA 85` (valid 8-bit-length BST with checksum 0x85) is emitted
as a datagram with body `[0xAA]` of length 1, yet the 16-bit little-endian
length field of the frame reads 0xAA01, so `body.len + 3 = total_length`
fails for this Type-2 id. -/
theorem type2_total_length_false :
    (parseBytes BdtpParser.init (encodeFrame [0xD0, 0x01, 0xAA, 0x85])).2
        = [Emission.msg ⟨0xD0, 1, [0xAA]⟩] ∧
    isBstType2 0xD0 = true ∧
    (1 : Nat) + 3 ≠ totalLength16 [0xD0, 0x01, 0xAA, 0x85] := by decide

/-- Claim C5, amended — every datagram emitted by the framer (whatever its
BST id, Type-2 ids included) has body length equal to the 8-bit store
length taken from frame offset 1; the 16-bit Type-2 total length exists
only in the session's raw-BST reconstruction, where it equals
`body.len + 3` (as a `uint16_t`) by construction. -/
theorem datagram_length_invariant (input : List Nat) (p : BdtpParser)
    (d : BstDatagram) (h : Emission.msg d ∈ (parseBytes p input).2) :
    d.data.length = d.storeLength ∧
    (isBstType2 d.bstId = true →
      totalLength16 (reconstructRawBst d) = (3 + d.data.length) % 65536) := by
  obtain ⟨frame, hf⟩ := parseBytes_msg h
  refine ⟨(parseBstFromFrame_length hf).1, fun h2 => ?_⟩
  simp only [reconstructRawBst, h2, if_pos, totalLength16, List.cons_append,
    List.nil_append, List.getD_cons_succ, List.getD_cons_zero]
  omega

/-- Witness for the claim C5 amended theorem on a concrete parsed stream. -/
theorem datagram_length_invariant_witness :
    (1 : Nat) = 1 ∧
    ((isBstType2 0xD0 = true) →
      totalLength16 (reconstructRawBst ⟨0xD0, 1, [0xAA]⟩) = (3 + 1) % 65536) :=
  ⟨(datagram_length_invariant (encodeFrame [0xD0, 0x01, 0xAA, 0x85])
      BdtpParser.init ⟨0xD0, 1, [0xAA]⟩ (by decide)).1,
   fun h2 => (datagram_length_invariant (encodeFrame [0xD0, 0x01, 0xAA, 0x85])
      BdtpParser.init ⟨0xD0, 1, [0xAA]⟩ (by decide)).2 h2⟩

/-! ## Claim theorems: PGN round trip -/

/-- Claim C4, counterexample — the round trip fails for the 8-bit data-page
value 4: `extractPduFields` masks the data page to 2 bits, so
`extract(calc(240, 0, 4))` returns `(240, 0, 0)`, not `(240, 0, 4)`. -/
theorem pgn_roundtrip_false_for_8bit_dp :
    extractPduFields (calculatePgn 240 0 4) ≠ (240, 0, 4) := by decide

/-- Claim C4, amended — for all 8-bit `pduf` and `pdus` and 2-bit data page
`dp` (the data page is a 2-bit field; `extractPduFields` masks it with
0x03), `extractPduFields (calculatePgn pduf pdus dp)` returns
`(pduf, pdus, dp)` when `pduf ≥ 240` and `(pduf, 0, dp)` when `pduf < 240`. -/
theorem pgn_roundtrip (pduf pdus dp : Nat)
    (hf : pduf < 256) (hs : pdus < 256) (hd : dp < 4) :
    extractPduFields (calculatePgn pduf pdus dp)
      = if 240 ≤ pduf then (pduf, pdus, dp) else (pduf, 0, dp) := by
  unfold extractPduFields calculatePgn
  by_cases h : 240 ≤ pduf
  · have e1 : (dp * 65536 + pduf * 256 + pdus) / 65536 % 4 = dp := by omega
    have e2 : (dp * 65536 + pduf * 256 + pdus) / 256 % 256 = pduf := by omega
    have e3 : (dp * 65536 + pduf * 256 + pdus) % 256 = pdus := by omega
    simp [h, e1, e2, e3]
  · have e1 : (dp * 65536 + pduf * 256) / 65536 % 4 = dp := by omega
    have e2 : (dp * 65536 + pduf * 256) / 256 % 256 = pduf := by omega
    simp [h, e1, e2]

/-- Witness for the claim C4 amended theorem, on both PDU forms. -/
theorem pgn_roundtrip_witness :
    extractPduFields (calculatePgn 248 1 1) = (248, 1, 1) ∧
    extractPduFields (calculatePgn 10 1 1) = (10, 0, 1) :=
  ⟨(pgn_roundtrip 248 1 1 (by decide) (by decide) (by decide)).trans (by decide),
   (pgn_roundtrip 10 1 1 (by decide) (by decide) (by decide)).trans (by decide)⟩

/-! ## Claim theorems: BST-93 end-to-end scenario -/

/-- Claim C3, counterexample — the spec's Scenario A wire bytes carry store
length 0x0D, but a BST-93 frame with a 3-byte data field needs store length
0x0E (11 header bytes + 3); with length byte 0x0D the framer checksums the
16-byte prefix `93 0D ... 11 22` (sum 0x16 ≠ 0) and rejects the frame, so
the pipeline yields no `Bst93Frame` (here `<cks> = 0xEA`, the value that
makes all payload bytes sum to zero as the claim requires). -/
theorem scenarioA_as_stated_false :
    calculateChecksum [0x93, 0x0D, 0x06, 0x01, 0xF8, 0x01, 0xFF, 0x23,
        0xE8, 0x03, 0x00, 0x00, 0x03, 0x11, 0x22, 0x33, 0xEA] = 0 ∧
    pipelineBst93 ([0x10, 0x02] ++ [0x93, 0x0D, 0x06, 0x01, 0xF8, 0x01, 0xFF, 0x23,
        0xE8, 0x03, 0x00, 0x00, 0x03, 0x11, 0x22, 0x33, 0xEA] ++ [0x10, 0x03])
      = [] := by decide

/-- Claim C3, amended — with the store-length byte corrected to 0x0E (and
`<cks> = 0xE9` making the payload sum zero), the framer plus BST decoder
yield exactly one `Bst93Frame` with priority 6, pgn 0x1F801, source 0x23,
destination 0xFF, timestamp 1000 and data `[0x11, 0x22, 0x33]`. -/
theorem scenarioA_amended :
    pipelineBst93 ([0x10, 0x02] ++ [0x93, 0x0E, 0x06, 0x01, 0xF8, 0x01, 0xFF, 0x23,
        0xE8, 0x03, 0x00, 0x00, 0x03, 0x11, 0x22, 0x33, 0xE9] ++ [0x10, 0x03])
      = [⟨0x93, 6, 0x1F801, 0x23, 0xFF, 1000, true, [0x11, 0x22, 0x33]⟩] := by
  decide

/-! ## Helper lemmas: pending table -/

/-- Unfolding of `mapErase` over a cons cell. -/
lemma mapErase_cons (k k0 : Nat) (v0 : PendingRequest) (rest : PendingTable) :
    mapErase k ((k0, v0) :: rest)
      = if k0 = k then mapErase k rest else (k0, v0) :: mapErase k rest := by
  by_cases h : k0 = k <;> simp [mapErase, List.filter_cons, h]

/-- Erasing a key removes its binding. -/
lemma mapFind_mapErase_self (k : Nat) (m : PendingTable) :
    mapFind k (mapErase k m) = none := by
  induction m with
  | nil => rfl
  | cons kv rest ih =>
      obtain ⟨k0, v0⟩ := kv
      by_cases h : k0 = k
      · simpa [mapErase_cons, h] using ih
      · simpa [mapErase_cons, h, mapFind, Ne.symm h] using ih

/-- Erasing a key leaves every other binding in place. -/
lemma mapFind_mapErase_ne (k k' : Nat) (m : PendingTable) (h : k' ≠ k) :
    mapFind k' (mapErase k m) = mapFind k' m := by
  induction m with
  | nil => rfl
  | cons kv rest ih =>
      obtain ⟨k0, v0⟩ := kv
      by_cases h0 : k0 = k
      · subst h0
        simpa [mapErase_cons, mapFind, h] using ih
      · by_cases h1 : k' = k0
        · simp [mapErase_cons, h0, mapFind, h1]
        · simpa [mapErase_cons, h0, mapFind, h1] using ih

/-- Erasing an absent key is the identity. -/
lemma mapErase_of_not_mem (k : Nat) (m : PendingTable) (h : k ∉ tableKeys m) :
    mapErase k m = m := by
  induction m with
  | nil => rfl
  | cons kv rest ih =>
      obtain ⟨k0, v0⟩ := kv
      simp only [tableKeys, List.map_cons, List.mem_cons, not_or] at h
      simp [mapErase_cons, Ne.symm h.1, ih (by simpa [tableKeys] using h.2)]

/-- Under unique keys, erasing a present key removes exactly one entry. -/
lemma mapErase_length (k : Nat) (m : PendingTable) (req : PendingRequest)
    (hnd : (tableKeys m).Nodup) (hf : mapFind k m = some req) :
    (mapErase k m).length + 1 = m.length := by
  induction m with
  | nil => simp [mapFind] at hf
  | cons kv rest ih =>
      obtain ⟨k0, v0⟩ := kv
      simp only [tableKeys, List.map_cons, List.nodup_cons] at hnd
      by_cases h0 : k0 = k
      · subst h0
        have hnot : k0 ∉ tableKeys rest := by simpa [tableKeys] using hnd.1
        simp [mapErase_cons, mapErase_of_not_mem k0 rest hnot]
      · have hne : k ≠ k0 := fun hh => h0 hh.symm
        have hf' : mapFind k rest = some req := by simpa [mapFind, hne] using hf
        have hlen := ih (by simpa [tableKeys] using hnd.2) hf'
        simp [mapErase_cons, h0]
        omega

/-- Under unique keys, erasing the entry found under `k` removes exactly one
entry holding that entry's callback. -/
lemma tableCount_mapErase (cb k : Nat) (m : PendingTable) (req : PendingRequest)
    (hnd : (tableKeys m).Nodup) (hf : mapFind k m = some req) :
    tableCount cb (mapErase k m) + (if req.callback = cb then 1 else 0)
      = tableCount cb m := by
  induction m with
  | nil => simp [mapFind] at hf
  | cons kv rest ih =>
      obtain ⟨k0, v0⟩ := kv
      simp only [tableKeys, List.map_cons, List.nodup_cons] at hnd
      by_cases h0 : k0 = k
      · subst h0
        have hnot : k0 ∉ tableKeys rest := by simpa [tableKeys] using hnd.1
        have hreq : v0 = req := by simpa [mapFind] using hf
        subst hreq
        simp [mapErase_cons, mapErase_of_not_mem k0 rest hnot, tableCount]
        omega
      · have hne : k ≠ k0 := fun hh => h0 hh.symm
        have hf' : mapFind k rest = some req := by simpa [mapFind, hne] using hf
        have hcount := ih (by simpa [tableKeys] using hnd.2) hf'
        simp [mapErase_cons, h0, tableCount]
        omega

/-- Inserting a fresh key appends the binding at the end (`std::map`
subscript-assign on an absent key). -/
lemma mapInsert_of_not_mem (k : Nat) (v : PendingRequest) (m : PendingTable)
    (h : k ∉ tableKeys m) : mapInsert k v m = m ++ [(k, v)] := by
  induction m with
  | nil => rfl
  | cons kv rest ih =>
      obtain ⟨k0, v0⟩ := kv
      simp only [tableKeys, List.map_cons, List.mem_cons, not_or] at h
      simp [mapInsert, h.1, ih (by simpa [tableKeys] using h.2)]

/-- `tableCount` distributes over append. -/
lemma tableCount_append (cb : Nat) (m1 m2 : PendingTable) :
    tableCount cb (m1 ++ m2) = tableCount cb m1 + tableCount cb m2 := by
  induction m1 with
  | nil => simp [tableCount]
  | cons kv rest ih => simp [tableCount, ih]; omega

/-- `invCount` distributes over append. -/
lemma invCount_append (cb : Nat) (l1 l2 : List Invocation) :
    invCount cb (l1 ++ l2) = invCount cb l1 + invCount cb l2 := by
  induction l1 with
  | nil => simp [invCount]
  | cons i rest ih => simp [invCount, ih]; omega

/-- Filtering by a predicate and by its negation partitions the count. -/
lemma tableCount_filter_partition (cb : Nat) (p : Nat × PendingRequest → Bool)
    (m : PendingTable) :
    tableCount cb (m.filter p) + tableCount cb (m.filter fun kv => !p kv)
      = tableCount cb m := by
  induction m with
  | nil => simp [tableCount]
  | cons kv rest ih =>
      rcases hp : p kv <;>
        simp [List.filter_cons, hp, tableCount] <;> omega

/-- Invocations built from table entries count exactly the table's entries
holding the callback. -/
lemma invCount_map (cb : Nat) (m : PendingTable) (resp : Option BemResponse)
    (code : ErrorCode) :
    invCount cb (m.map fun kv => ⟨kv.2.callback, resp, code⟩) = tableCount cb m := by
  induction m with
  | nil => rfl
  | cons kv rest ih => simp [invCount, tableCount, ih]

/-- The keys of a filtered table form a sublist of the original keys. -/
lemma tableKeys_filter_sublist (p : Nat × PendingRequest → Bool)
    (m : PendingTable) :
    (tableKeys (m.filter p)).Sublist (tableKeys m) :=
  (List.filter_sublist m).map Prod.fst

/-- One-step unfolding of `runOps`. -/
lemma runOps_cons (m : PendingTable) (op : BemOp) (ops : List BemOp) :
    runOps m (op :: ops)
      = ((runOps (stepOp m op).1 ops).1,
         (stepOp m op).2 ++ (runOps (stepOp m op).1 ops).2) := rfl

/-- `runOps` splits over appended traces. -/
lemma runOps_append (m : PendingTable) (l1 l2 : List BemOp) :
    runOps m (l1 ++ l2)
      = ((runOps (runOps m l1).1 l2).1,
         (runOps m l1).2 ++ (runOps (runOps m l1).1 l2).2) := by
  induction l1 generalizing m with
  | nil => simp [runOps]
  | cons op ops ih => simp [List.cons_append, runOps_cons, ih, List.append_assoc]

/-- `regCount` distributes over append. -/
lemma regCount_append (cb : Nat) (l1 l2 : List BemOp) :
    regCount cb (l1 ++ l2) = regCount cb l1 + regCount cb l2 := by
  induction l1 with
  | nil => simp [regCount]
  | cons op ops ih =>
      cases op with
      | register commandId bstId now timeout cb' => simp [regCount, ih]; omega
      | correlate r => simp [regCount, ih]
      | sweep now => simp [regCount, ih]
      | clear => simp [regCount, ih]

/-- `regKeys` distributes over append. -/
lemma regKeys_append (l1 l2 : List BemOp) :
    regKeys (l1 ++ l2) = regKeys l1 ++ regKeys l2 := by
  induction l1 with
  | nil => simp [regKeys]
  | cons op ops ih => cases op <;> simp [regKeys, ih]

/-- Main counting invariant for the pending-request table: over any trace
whose registration keys are pairwise distinct and fresh for the starting
table, the invocations of a callback plus its remaining table entries equal
its starting table entries plus its registrations. -/
lemma runOps_count (ops : List BemOp) :
    ∀ (m : PendingTable) (cb : Nat),
      (tableKeys m).Nodup →
      (regKeys ops).Nodup →
      (∀ k ∈ tableKeys m, k ∉ regKeys ops) →
      invCount cb (runOps m ops).2 + tableCount cb (runOps m ops).1
        = tableCount cb m + regCount cb ops := by
  induction ops with
  | nil =>
      intro m cb _ _ _
      simp [runOps, invCount, regCount]
  | cons op ops ih =>
      intro m cb hnd hrnd hdisj
      rw [runOps_cons]
      cases op with
      | register commandId bstId now timeout cb' =>
          have hrk : regKeys (BemOp.register commandId bstId now timeout cb' :: ops)
              = requestKey commandId bstId :: regKeys ops := rfl
          rw [hrk] at hrnd hdisj
          have hkfresh : requestKey commandId bstId ∉ tableKeys m :=
            fun hmem => hdisj _ hmem (List.mem_cons_self _ _)
          have hndcons := List.nodup_cons.mp hrnd
          have hstep : stepOp m (BemOp.register commandId bstId now timeout cb')
              = (m ++ [(requestKey commandId bstId,
                  (⟨commandId, now, timeout, cb'⟩ : PendingRequest))], []) := by
            simp [stepOp, registerRequest, mapInsert_of_not_mem _ _ _ hkfresh]
          rw [hstep]
          have hnd' : (tableKeys (m ++ [(requestKey commandId bstId,
              (⟨commandId, now, timeout, cb'⟩ : PendingRequest))])).Nodup := by
            simp only [tableKeys, List.map_append, List.map_cons, List.map_nil]
            rw [List.nodup_append]
            refine ⟨hnd, List.nodup_singleton _, ?_⟩
            intro a ha hb
            simp only [List.mem_singleton] at hb
            subst hb
            exact hkfresh ha
          have hdisj' : ∀ k ∈ tableKeys (m ++ [(requestKey commandId bstId,
              (⟨commandId, now, timeout, cb'⟩ : PendingRequest))]), k ∉ regKeys ops := by
            intro a ha
            simp only [tableKeys, List.map_append, List.map_cons, List.map_nil,
              List.mem_append, List.mem_singleton] at ha
            rcases ha with ha | ha
            · exact fun hb => hdisj a ha (List.mem_cons_of_mem _ hb)
            · subst ha; exact hndcons.1
          have hmain := ih _ cb hnd' hndcons.2 hdisj'
          have htc : tableCount cb (m ++ [(requestKey commandId bstId,
              (⟨commandId, now, timeout, cb'⟩ : PendingRequest))])
              = tableCount cb m + (if cb' = cb then 1 else 0) := by
            rw [tableCount_append]; simp [tableCount]
          have hrc : regCount cb (BemOp.register commandId bstId now timeout cb' :: ops)
              = (if cb' = cb then 1 else 0) + regCount cb ops := rfl
          rw [hrc]
          simp only [List.nil_append]
          omega
      | correlate r =>
          have hrnd' : (regKeys ops).Nodup := hrnd
          have hdisj' : ∀ k ∈ tableKeys m, k ∉ regKeys ops := hdisj
          rcases hfind : mapFind (buildResponseKey r.bstId r.bemId) m with _ | req
          · have hstep : stepOp m (BemOp.correlate r) = (m, []) := by
              simp [stepOp, correlateResponse, hfind]
            rw [hstep]
            simp only [List.nil_append]
            simpa [regCount] using ih m cb hnd hrnd' hdisj'
          · have hstep : stepOp m (BemOp.correlate r)
                = (mapErase (buildResponseKey r.bstId r.bemId) m,
                   [⟨req.callback, some r,
                     if r.errorCode = 0 then ErrorCode.Ok
                     else ErrorCode.UnsupportedOperation⟩]) := by
              simp [stepOp, correlateResponse, hfind]
            rw [hstep]
            have hsub := tableKeys_filter_sublist
              (fun kv => kv.1 != buildResponseKey r.bstId r.bemId) m
            have hnd'' : (tableKeys
                (mapErase (buildResponseKey r.bstId r.bemId) m)).Nodup :=
              hsub.nodup hnd
            have hdisj'' : ∀ k ∈ tableKeys
                (mapErase (buildResponseKey r.bstId r.bemId) m),
                k ∉ regKeys ops := fun k hk => hdisj' k (hsub.subset hk)
            have hmain := ih _ cb hnd'' hrnd' hdisj''
            have hcount := tableCount_mapErase cb _ m req hnd hfind
            rw [invCount_append]
            simp only [invCount, regCount]
            omega
      | sweep now =>
          have hrnd' : (regKeys ops).Nodup := hrnd
          have hdisj' : ∀ k ∈ tableKeys m, k ∉ regKeys ops := hdisj
          have hstep : stepOp m (BemOp.sweep now) = processTimeouts m now := rfl
          rw [hstep]
          simp only [processTimeouts]
          have hsub := tableKeys_filter_sublist (fun kv => !expiredAt now kv.2) m
          have hnd'' : (tableKeys
              (m.filter fun kv => !expiredAt now kv.2)).Nodup := hsub.nodup hnd
          have hdisj'' : ∀ k ∈ tableKeys (m.filter fun kv => !expiredAt now kv.2),
              k ∉ regKeys ops := fun k hk => hdisj' k (hsub.subset hk)
          have hmain := ih _ cb hnd'' hrnd' hdisj''
          have hpart := tableCount_filter_partition cb
            (fun kv => expiredAt now kv.2) m
          have hmap := invCount_map cb (m.filter fun kv => expiredAt now kv.2)
            none ErrorCode.Timeout
          rw [invCount_append, hmap]
          simp only [regCount]
          omega
      | clear =>
          have hrnd' : (regKeys ops).Nodup := hrnd
          have hstep : stepOp m BemOp.clear
              = ([], m.map fun kv => ⟨kv.2.callback, none, ErrorCode.Canceled⟩) := rfl
          rw [hstep]
          have hmain := ih [] cb (by simp [tableKeys]) hrnd'
            (by intro k hk; simp [tableKeys] at hk)
          have hmap := invCount_map cb m none ErrorCode.Canceled
          rw [invCount_append, hmap]
          simp only [regCount]
          simp only [tableCount] at hmain ⊢
          omega

/-- Every invocation a trace produces carries one of the completion codes
`Ok`, `UnsupportedOperation`, `Timeout` or `Canceled`. -/
lemma runOps_codes (ops : List BemOp) :
    ∀ (m : PendingTable) (i : Invocation), i ∈ (runOps m ops).2 →
      i.code = ErrorCode.Ok ∨ i.code = ErrorCode.UnsupportedOperation ∨
      i.code = ErrorCode.Timeout ∨ i.code = ErrorCode.Canceled := by
  induction ops with
  | nil => intro m i h; simp [runOps] at h
  | cons op ops ih =>
      intro m i h
      rw [runOps_cons] at h
      rcases List.mem_append.mp h with h | h
      · cases op with
        | register commandId bstId now timeout cb' => simp [stepOp] at h
        | correlate r =>
            rcases hfind : mapFind (buildResponseKey r.bstId r.bemId) m with _ | req
            · simp [stepOp, correlateResponse, hfind] at h
            · simp only [stepOp, correlateResponse, hfind, List.mem_singleton] at h
              subst h
              by_cases he : r.errorCode = 0 <;> simp [he]
        | sweep now =>
            simp only [stepOp, processTimeouts, List.mem_map] at h
            obtain ⟨kv, _, rfl⟩ := h
            simp
        | clear =>
            simp only [stepOp, clearPendingRequests, List.mem_map] at h
            obtain ⟨kv, _, rfl⟩ := h
            simp
      · exact ih _ i h

/-! ## Claim theorems: BEM engine -/

/-- Claim C1, counterexample — a second `registerRequest` with the same
correlation key while the first is pending overwrites the first entry
(`pending_requests_[key] = req`), so the first callback is invoked zero
times over the whole session lifetime (here ending with
`clearPendingRequests`): callback 1 is registered once but never invoked. -/
theorem duplicate_key_first_callback_never_invoked :
    regCount 1 [BemOp.register 0x11 0xA1 0 5000 1,
        BemOp.register 0x11 0xA1 0 5000 2] = 1 ∧
    invCount 1 (runOps [] ([BemOp.register 0x11 0xA1 0 5000 1,
        BemOp.register 0x11 0xA1 0 5000 2] ++ [BemOp.clear])).2 = 0 := by decide

/-- Claim C1, amended — provided no two `registerRequest` calls of the
session share a correlation key, every registration's completion is invoked
exactly once over a session lifetime ending with `clearPendingRequests`
(counted per callback: invocations equal registrations), and every
invocation carries one of the completion codes Ok / UnsupportedOperation
(correlated), Timeout (timed out) or Canceled; with a duplicated pending
key the overwritten request's callback is never invoked. -/
theorem bem_request_completes_once (ops : List BemOp) (cb : Nat)
    (hnd : (regKeys ops).Nodup) :
    invCount cb (runOps [] (ops ++ [BemOp.clear])).2 = regCount cb ops ∧
    ∀ i ∈ (runOps [] (ops ++ [BemOp.clear])).2,
      i.code = ErrorCode.Ok ∨ i.code = ErrorCode.UnsupportedOperation ∨
      i.code = ErrorCode.Timeout ∨ i.code = ErrorCode.Canceled := by
  refine ⟨?_, fun i hi => runOps_codes _ _ i hi⟩
  have hrnd : (regKeys (ops ++ [BemOp.clear])).Nodup := by
    rw [regKeys_append]; simpa [regKeys] using hnd
  have hmain := runOps_count (ops ++ [BemOp.clear]) [] cb (by simp [tableKeys])
    hrnd (by intro k hk; simp [tableKeys] at hk)
  have hfin : (runOps [] (ops ++ [BemOp.clear])).1 = [] := by
    rw [runOps_append]
    simp [runOps, runOps_cons, stepOp, clearPendingRequests]
  have hrc : regCount cb (ops ++ [BemOp.clear]) = regCount cb ops := by
    rw [regCount_append]; simp [regCount]
  rw [hfin] at hmain
  simp only [tableCount] at hmain
  omega

/-- Witness for the claim C1 amended theorem: a register/correlate/clear
session in which callback 7's invocations equal its registrations. -/
theorem bem_request_completes_once_witness :
    invCount 7 (runOps [] ([BemOp.register 0x11 0xA1 0 5000 7,
        BemOp.correlate ⟨0xA0, 0x11, 0, []⟩] ++ [BemOp.clear])).2
      = regCount 7 [BemOp.register 0x11 0xA1 0 5000 7,
          BemOp.correlate ⟨0xA0, 0x11, 0, []⟩] :=
  (bem_request_completes_once
    [BemOp.register 0x11 0xA1 0 5000 7, BemOp.correlate ⟨0xA0, 0x11, 0, []⟩]
    7 (by decide)).1

/-- Claim C7 — `correlateResponse` on a hit removes exactly the entry under
`(response bst id, bem id)`, invokes its completion with the response and
`Ok` when the device error code is 0 or `UnsupportedOperation` otherwise,
and returns true; on a miss it returns false and leaves the table
unchanged. -/
theorem correlate_response_spec (m : PendingTable) (r : BemResponse)
    (hnd : (tableKeys m).Nodup) :
    (mapFind (buildResponseKey r.bstId r.bemId) m = none →
       correlateResponse m r = (false, m, [])) ∧
    (∀ req, mapFind (buildResponseKey r.bstId r.bemId) m = some req →
       correlateResponse m r
         = (true, mapErase (buildResponseKey r.bstId r.bemId) m,
            [⟨req.callback, some r,
              if r.errorCode = 0 then ErrorCode.Ok
              else ErrorCode.UnsupportedOperation⟩]) ∧
       (mapErase (buildResponseKey r.bstId r.bemId) m).length + 1 = m.length ∧
       mapFind (buildResponseKey r.bstId r.bemId)
           (mapErase (buildResponseKey r.bstId r.bemId) m) = none ∧
       ∀ k, k ≠ buildResponseKey r.bstId r.bemId →
         mapFind k (mapErase (buildResponseKey r.bstId r.bemId) m)
           = mapFind k m) := by
  constructor
  · intro h; simp [correlateResponse, h]
  · intro req h
    exact ⟨by simp [correlateResponse, h],
           mapErase_length _ _ _ hnd h,
           mapFind_mapErase_self _ _,
           fun k hk => mapFind_mapErase_ne _ _ _ hk⟩

/-- Witness for the claim C7 theorem on a one-entry table and a matching
zero-error response. -/
theorem correlate_response_spec_witness :
    correlateResponse [(buildResponseKey 0xA0 0x11,
        (⟨0x11, 0, 5000, 7⟩ : PendingRequest))] ⟨0xA0, 0x11, 0, [1, 2]⟩
      = (true,
         mapErase (buildResponseKey 0xA0 0x11)
           [(buildResponseKey 0xA0 0x11, (⟨0x11, 0, 5000, 7⟩ : PendingRequest))],
         [⟨7, some ⟨0xA0, 0x11, 0, [1, 2]⟩,
           if (0 : Nat) = 0 then ErrorCode.Ok
           else ErrorCode.UnsupportedOperation⟩]) :=
  ((correlate_response_spec
      [(buildResponseKey 0xA0 0x11, (⟨0x11, 0, 5000, 7⟩ : PendingRequest))]
      ⟨0xA0, 0x11, 0, [1, 2]⟩ (by decide)).2
    ⟨0x11, 0, 5000, 7⟩ (by decide)).1

/-- Claim C8 — `sendBemCommand` on a command whose BST id is not a BEM
command id or whose payload exceeds 252 bytes invokes the completion
synchronously with `InvalidArgument`, leaves the pending table unchanged
and sends nothing; on a command that encodes, the pending request is
registered and the registration action precedes the transport send. -/
theorem send_bem_command_spec (m : PendingTable) (c : BemCommand)
    (now timeout cb : Nat) :
    ((isBemCommandId c.bstId = false ∨ 252 < c.data.length) →
       sendBemCommand m c now timeout cb
         = (m, [SessionAction.invokeCallback cb none ErrorCode.InvalidArgument])) ∧
    (∀ frame, encodeCommand c = some frame →
       sendBemCommand m c now timeout cb
         = (registerRequest m c.bemId c.bstId now timeout cb,
            [SessionAction.registerPending (requestKey c.bemId c.bstId) cb,
             SessionAction.transportSend frame])) := by
  constructor
  · intro h
    have henc : encodeCommand c = none := by
      rcases h with h | h
      · simp [encodeCommand, h]
      · rcases hid : isBemCommandId c.bstId <;> simp [encodeCommand, hid, h]
    simp [sendBemCommand, henc]
  · intro frame h
    simp [sendBemCommand, h]

/-- Witness for the claim C8 theorem: a non-command BST id is rejected
synchronously, and a valid Get Operating Mode command registers before
sending. -/
theorem send_bem_command_spec_witness :
    sendBemCommand [] ⟨0x93, 0x11, []⟩ 0 5000 3
      = ([], [SessionAction.invokeCallback 3 none ErrorCode.InvalidArgument]) ∧
    sendBemCommand [] ⟨0xA1, 0x11, []⟩ 0 5000 3
      = (registerRequest [] 0x11 0xA1 0 5000 3,
         [SessionAction.registerPending (requestKey 0x11 0xA1) 3,
          SessionAction.transportSend (encodeFrame [0xA1, 0x01, 0x11, 0x4D])]) :=
  ⟨(send_bem_command_spec [] ⟨0x93, 0x11, []⟩ 0 5000 3).1 (Or.inl (by decide)),
   (send_bem_command_spec [] ⟨0xA1, 0x11, []⟩ 0 5000 3).2
     (encodeFrame [0xA1, 0x01, 0x11, 0x4D]) (by decide)⟩

end Actisense
